import Mathlib

/-!
Verification of the CSUSB internship assistant's discovery and auto-apply core.

The definitions below are a shallow embedding of the Python sources:
`app.py` (seed scraping, portal deep-scrape, aggregation, dedup, caps),
`auto_apply.py` (platform resolution, per-target application, batch runner,
temp-file lifecycle), `backend_navigator.py` (the LLM-guided bounded
navigator) and `playwright_fetcher.py` (the revisit-refusing page fetcher).
Network fetches, the LLM oracle, and BeautifulSoup parsing are modelled as
explicit function parameters (environments); everything else follows the
source line by line.
-/

/-! ## Character-list string utilities

Python string primitives (`in`, `.lower()`, `.strip()`, `.capitalize()`,
`.split(".")`, `re.sub`) modelled over `List Char` so that every definition
reduces in the kernel. -/

/-- `isPrefixL pat cs` : does `cs` start with `pat`? (list version of
Python slicing/`startswith`). -/
def isPrefixL : List Char → List Char → Bool
  | [], _ => true
  | _ :: _, [] => false
  | a :: as, b :: bs => a = b && isPrefixL as bs

/-- `infixAt pat cs` : does `pat` occur anywhere in `cs`? (Python `in`). -/
def infixAt (pat : List Char) : List Char → Bool
  | [] => isPrefixL pat []
  | c :: t => isPrefixL pat (c :: t) || infixAt pat t

/-- `strContains hay needle` : Python `needle in hay`. -/
def strContains (hay needle : String) : Bool :=
  infixAt needle.toList hay.toList

/-- Python `str.lower()` (ASCII case fold, which is all the sources use). -/
def lowerStr (s : String) : String :=
  ⟨s.toList.map Char.toLower⟩

/-- Python `str.startswith(p)`. -/
def startsWithStr (s p : String) : Bool :=
  isPrefixL p.toList s.toList

/-- Python `str.strip()`. -/
def trimStr (s : String) : String :=
  ⟨((s.toList.dropWhile Char.isWhitespace).reverse.dropWhile Char.isWhitespace).reverse⟩

/-- Python `str.capitalize()`: first character upper-cased, rest lower-cased. -/
def capitalizeStr (s : String) : String :=
  match s.toList with
  | [] => ""
  | c :: t => ⟨c.toUpper :: t.map Char.toLower⟩

/-- `re.sub(r"\s+", " ", s)`: collapse each maximal whitespace run to one space. -/
def collapseWsL : List Char → List Char
  | [] => []
  | [c] => [if c.isWhitespace then ' ' else c]
  | a :: b :: t =>
    if a.isWhitespace && b.isWhitespace then collapseWsL (b :: t)
    else (if a.isWhitespace then ' ' else a) :: collapseWsL (b :: t)

/-- String wrapper for `collapseWsL`. -/
def collapseWs (s : String) : String := ⟨collapseWsL s.toList⟩

/-- Python `str.split(sep)` for a single-character separator, list level. -/
def splitOnCharL (sep : Char) : List Char → List (List Char)
  | [] => [[]]
  | c :: t =>
    let r := splitOnCharL sep t
    if c = sep then [] :: r
    else
      match r with
      | h :: rt => (c :: h) :: rt
      | [] => [[c]]

/-- Python `host.split(".")`. -/
def splitDots (s : String) : List String :=
  (splitOnCharL '.' s.toList).map fun l => ⟨l⟩

/-- The message of the exception CPython raises for an out-of-range index. -/
def pyIndexErrorMsg : String := "IndexError: list index out of range"

/-- Python `parts[-2]`: the second-to-last element, raising `IndexError`
when the list has fewer than two elements (the sources index `[-2]` with no
guard, so this crash path must propagate). -/
def pyNeg2 (l : List String) : Except String String :=
  match l.reverse with
  | _ :: x :: _ => .ok x
  | _ => .error pyIndexErrorMsg

/-- Boolean membership in a list of strings (Python `x in someSet`). -/
def memStr (x : String) : List String → Bool
  | [] => false
  | y :: ys => if x = y then true else memStr x ys

/-- Boolean membership for `(lowered text, url)` keys (the `seen` set of
`scrape_csusb_links`). -/
def memPair (x : String × String) : List (String × String) → Bool
  | [] => false
  | y :: ys => if x = y then true else memPair x ys

/-- All elements of the first list occur in the second. -/
def allMemStr : List String → List String → Bool
  | [], _ => true
  | x :: xs, l => memStr x l && allMemStr xs l

/-- No duplicates in a list of strings. -/
def nodupStr : List String → Bool
  | [] => true
  | x :: xs => !(memStr x xs) && nodupStr xs

/-! ## URL model

Shallow model of `urllib.parse` (`urlparse`, `urljoin`) covering the shapes
the sources exercise: absolute `scheme://netloc/path?query#fragment` URLs,
root-relative references, and plain relative segments. Dot-segment (`..`)
normalization and query/fragment merging are not modelled; none of the
claims exercise them. -/

/-- Split a character list at the first occurrence of `pat`, returning the
parts before and after it. -/
def splitAtInfix (pat : List Char) : List Char → Option (List Char × List Char)
  | [] => if isPrefixL pat [] then some ([], []) else none
  | c :: t =>
    if isPrefixL pat (c :: t) then some ([], (c :: t).drop pat.length)
    else
      match splitAtInfix pat t with
      | some (pre, post) => some (c :: pre, post)
      | none => none

/-- Characters that terminate the netloc component. -/
def netlocStop (c : Char) : Bool := c = '/' || c = '?' || c = '#'

/-- Characters that terminate the path component. -/
def pathStop (c : Char) : Bool := c = '?' || c = '#'

/-- `urlparse(u).netloc` (case preserved). -/
def netlocOf (u : String) : String :=
  match splitAtInfix "://".toList u.toList with
  | some (_, rest) => ⟨rest.takeWhile fun c => !netlocStop c⟩
  | none => ""

/-- `urlparse(u).path`. A reference without `"://"` is treated as all path
(as `urlparse` does for relative references). -/
def urlPathOf (u : String) : String :=
  match splitAtInfix "://".toList u.toList with
  | some (_, rest) =>
    ⟨((rest.dropWhile fun c => !netlocStop c).takeWhile fun c => !pathStop c)⟩
  | none => ⟨u.toList.takeWhile fun c => !pathStop c⟩

/-- `'{uri.scheme}://{uri.netloc}'` of an absolute URL (used as the join
base in `collect_postings_from_portal`). -/
def schemeHostOf (u : String) : String :=
  match splitAtInfix "://".toList u.toList with
  | some (pre, rest) =>
    (⟨pre⟩ : String) ++ "://" ++ (⟨rest.takeWhile fun c => !netlocStop c⟩ : String)
  | none => ""

/-- The directory prefix of a path: everything up to and including the last
`'/'` (empty when the path has no slash). -/
def urlDirOf (p : String) : String :=
  ⟨((p.toList.reverse.dropWhile fun c => c ≠ '/')).reverse⟩

/-- `urljoin(base, rel)`: absolute references are kept; root-relative ones
are resolved against the base's scheme+host; other relative segments are
resolved against the base path's directory. -/
def urljoinM (base rel : String) : String :=
  if strContains rel "://" then rel
  else if startsWithStr rel "/" then schemeHostOf base ++ rel
  else if rel.isEmpty then base
  else
    let d := urlDirOf (urlPathOf base)
    schemeHostOf base ++ (if d.isEmpty then "/" else d) ++ rel

/-- `app.py::_host`: lower-cased netloc (the `try/except` fallback to `""`
is subsumed because the parser is total). -/
def hostOf (url : String) : String := lowerStr (netlocOf url)

/-! ## app.py — configuration and link heuristics -/

/-- `app.py::CSUSB_URL`. -/
def CSUSB_URL : String := "https://www.csusb.edu/cse/internships-careers"

/-- `app.py::PLATFORMS` (insertion order preserved, as in a Python dict). -/
def PLATFORMS : List (String × String) :=
  [("greenhouse", "greenhouse.io"), ("lever", "lever.co"), ("workday", "workday"),
   ("smartrecruiters", "smartrecruiters.com"), ("icims", "icims.com"), ("taleo", "taleo.net")]

/-- `app.py::MAX_POSTINGS_PER_PORTAL`. -/
def MAX_POSTINGS_PER_PORTAL : Nat := 30

/-- `app.py::MAX_TOTAL_POSTINGS` — the global posting cap. -/
def MAX_TOTAL_POSTINGS : Nat := 150

/-- `app.py::_canon`: lower-case and strip every character outside `[a-z0-9]`. -/
def _canon (s : String) : String :=
  ⟨(lowerStr s).toList.filter fun c => ('a' ≤ c && c ≤ 'z') || ('0' ≤ c && c ≤ '9')⟩

/-- `app.py::_is_internish`. -/
def _is_internish (text : String) : Bool :=
  let s := lowerStr text
  strContains s "intern" || strContains s "co-op" || strContains s "co op" ||
    strContains s "internship"

/-- First alternation of the `_job_like_path` regex:
`/job[s]?/|/position[s]?/|/opportunit|/careers/|/opening|/vacanc`. -/
def jobRe1 (p : String) : Bool :=
  strContains p "/job/" || strContains p "/jobs/" || strContains p "/position/" ||
    strContains p "/positions/" || strContains p "/opportunit" ||
    strContains p "/careers/" || strContains p "/opening" || strContains p "/vacanc"

/-- Keywords of the second `_job_like_path` regex
(`req|job|r[e]?q|gh_jid|gh_src|posting`, with `r[e]?q` unfolded). -/
def reqKeywords : List (List Char) :=
  ["req".toList, "job".toList, "rq".toList, "gh_jid".toList, "gh_src".toList,
   "posting".toList]

/-- Does the list start with a digit (`\d+` needs at least one)? -/
def digitStart : List Char → Bool
  | c :: _ => c.isDigit
  | [] => false

/-- After a slash or dash, try each keyword followed by an optional `[-_]`
and a digit. -/
def reqIdAfter (cs : List Char) : Bool :=
  reqKeywords.any fun kw =>
    if isPrefixL kw cs then
      let rest := cs.drop kw.length
      digitStart rest ||
        (match rest with
         | c :: t => (c = '-' || c = '_') && digitStart t
         | [] => false)
    else false

/-- Scan for the second `_job_like_path` regex: a slash or dash, then
`(req|job|r[e]?q|gh_jid|gh_src|posting)[-_]?\d+`. -/
def jobRe2L : List Char → Bool
  | [] => false
  | c :: t => ((c = '/' || c = '-') && reqIdAfter t) || jobRe2L t

/-- String wrapper for `jobRe2L`. -/
def jobRe2 (p : String) : Bool := jobRe2L p.toList

/-- Third alternation of `_job_like_path`: `/apply/|/jobs?/`. -/
def jobRe3 (p : String) : Bool :=
  strContains p "/apply/" || strContains p "/job/" || strContains p "/jobs/"

/-- `app.py::_job_like_path`: `p = (path or "/").lower()`, then the three
regex searches. -/
def _job_like_path (path : String) : Bool :=
  let p := lowerStr (if path.isEmpty then "/" else path)
  jobRe1 p || jobRe2 p || jobRe3 p

/-- Walk the `PLATFORMS` table looking for a fragment of the host. -/
def platLookup : List (String × String) → String → String
  | [], _ => "other"
  | (name, pat) :: rest, h => if strContains h pat then name else platLookup rest h

/-- `app.py::_platform_of`: match the `PLATFORMS` fragments against the
lower-cased hostname only. -/
def _platform_of (url : String) : String :=
  platLookup PLATFORMS (hostOf url)

/-- Python `plat in PLATFORMS` (dict key membership). -/
def isKnownPlatform (plat : String) : Bool :=
  memStr plat (PLATFORMS.map fun kv => kv.1)

/-- Does the host contain any known ATS fragment? (Specification-side helper
for stating when `_platform_of` returns `"other"`.) -/
def platFragIn (h : String) : Bool :=
  PLATFORMS.any fun kv => strContains h kv.2

/-! ## app.py — discovery pipeline -/

/-- An `<a href=...>` anchor as handed over by BeautifulSoup: extracted text
and raw `href`. Pages are modelled as their anchor lists, which is all the
scraping code consumes. -/
structure Anchor where
  text : String
  href : String
deriving DecidableEq, Repr

/-- A row of `scrape_csusb_links`'s output. -/
structure Src where
  title : String
  company_guess : String
  link : String
  host : String
deriving DecidableEq, Repr

/-- A `{"title": ..., "link": ...}` dict from `collect_postings_from_portal`. -/
structure PPost where
  title : String
  link : String
deriving DecidableEq, Repr

/-- A posting row of `deep_collect_postings`. -/
structure Row where
  title : String
  company : String
  link : String
  platform : String
  source : String
  posted : String
  blob : String
deriving DecidableEq, Repr

/-- `comp = host.split(".")[-2].capitalize() if host else ""` of
`scrape_csusb_links`: on a non-empty host with no dot the unguarded `[-2]`
raises `IndexError`. -/
def compGuess (host : String) : Except String String :=
  if host.isEmpty then .ok "" else (pyNeg2 (splitDots host)).map capitalizeStr

/-- The anchor loop of `scrape_csusb_links` (text cleanup, join, seen-key
dedup, internship filter, company guess from the host); the company guess's
`IndexError` propagates. -/
def csusbScan : List Anchor → List Src → List (String × String) → Except String (List Src)
  | [], rows, _ => .ok rows
  | a :: rest, rows, seen =>
    let t := collapseWs a.text
    if t.isEmpty then csusbScan rest rows seen
    else
      let absu := urljoinM CSUSB_URL a.href
      let k := (lowerStr t, absu)
      if memPair k seen then csusbScan rest rows seen
      else if !(_is_internish (t ++ " " ++ absu)) then csusbScan rest rows seen
      else
        let host := hostOf absu
        match compGuess host with
        | .error e => .error e
        | .ok comp => csusbScan rest (rows ++ [⟨t, comp, absu, host⟩]) (seen ++ [k])

/-- `app.py::scrape_csusb_links`. `fetch` models `_read_url` (an HTTP GET
whose `raise_for_status`/transport errors are `Except.error`); its anchors
are those of the page's `<main>` element. Both the fetch failure and the
company-guess `IndexError` propagate: there is no handler in the source. -/
def scrape_csusb_links (fetch : String → Except String (List Anchor)) :
    Except String (List Src) :=
  match fetch CSUSB_URL with
  | .error e => .error e
  | .ok anchors => csusbScan anchors [] []

/-- First anchor loop of `collect_postings_from_portal` (internship text +
job-like path, dedup by lower-cased absolute URL, capped at `limit`). -/
def portalScan1 (base : String) (limit : Nat) :
    List Anchor → List PPost → List String → List PPost × List String
  | [], out, seen => (out, seen)
  | a :: rest, out, seen =>
    let absu := urljoinM base a.href
    let p := urlPathOf absu
    if !(_is_internish (a.text ++ " " ++ absu)) then portalScan1 base limit rest out seen
    else if !(_job_like_path p) then portalScan1 base limit rest out seen
    else
      let key := lowerStr absu
      if memStr key seen then portalScan1 base limit rest out seen
      else
        let out' := out ++ [⟨if a.text.isEmpty then "Internship" else a.text, absu⟩]
        let seen' := seen ++ [key]
        if limit ≤ out'.length then (out', seen')
        else portalScan1 base limit rest out' seen'

/-- Fallback anchor loop of `collect_postings_from_portal` (URL-only
`"intern"` cue), run only when the first loop found nothing. -/
def portalScan2 (base : String) (limit : Nat) :
    List Anchor → List PPost → List String → List PPost
  | [], out, _ => out
  | a :: rest, out, seen =>
    let absu := urljoinM base a.href
    if strContains (lowerStr absu) "intern" && _job_like_path (urlPathOf absu) then
      let key := lowerStr absu
      if memStr key seen then portalScan2 base limit rest out seen
      else
        let out' := out ++ [⟨if a.text.isEmpty then "Internship" else a.text, absu⟩]
        let seen' := seen ++ [key]
        if limit ≤ out'.length then out'
        else portalScan2 base limit rest out' seen'
    else portalScan2 base limit rest out seen

/-- `app.py::collect_postings_from_portal`. `fetched` is the outcome of the
`_read_url(root_url)` call guarded by `try/except` — an exception yields
`[]`. -/
def collect_postings_from_portal (fetched : Except String (List Anchor))
    (root_url : String) (limit : Nat) : List PPost :=
  match fetched with
  | .error _ => []
  | .ok anchors =>
    let base := schemeHostOf root_url
    let (out, seen) := portalScan1 base limit anchors [] []
    if out.isEmpty then portalScan2 base limit anchors [] seen else out

/-- The direct-posting row built in `deep_collect_postings` for a source
link that already looks like a posting detail page. -/
def directRow (today : String) (src : Src) (url plat : String) : Row :=
  ⟨src.title, src.company_guess, url, plat, CSUSB_URL, today,
    _canon (src.title ++ " " ++ src.company_guess ++ " " ++ url ++ " " ++ plat)⟩

/-- `src["company_guess"] or urlparse(p["link"]).netloc.split(".")[-2].capitalize()`
of the portal branch: the fallback is evaluated only when the guess is
empty, and its unguarded `[-2]` raises `IndexError` on a dotless netloc. -/
def portalCompany (guess link : String) : Except String String :=
  if guess.isEmpty then (pyNeg2 (splitDots (netlocOf link))).map capitalizeStr
  else .ok guess

/-- The row built in `deep_collect_postings` for a posting pulled from a
followed portal; the company fallback's `IndexError` propagates. -/
def portalRow (today guess source_url plat : String) (p : PPost) : Except String Row :=
  (portalCompany guess p.link).map fun comp =>
    ⟨p.title, comp, p.link, plat, source_url, today,
      _canon (p.title ++ " " ++ guess ++ " " ++ p.link ++ " " ++ plat)⟩

/-- The inner `for p in postings` loop of `deep_collect_postings`, with the
global-cap break after each append. -/
def portalLoop (today guess source_url plat : String) :
    List PPost → List Row → Nat → Except String (List Row × Nat)
  | [], rows, total => .ok (rows, total)
  | p :: ps, rows, total =>
    match portalRow today guess source_url plat p with
    | .error e => .error e
    | .ok row =>
      let rows' := rows ++ [row]
      let total' := total + 1
      if MAX_TOTAL_POSTINGS ≤ total' then .ok (rows', total')
      else portalLoop today guess source_url plat ps rows' total'

/-- The outer `for src in sources` loop of `deep_collect_postings`: keep a
source directly when its path is job-like and its URL internship-ish,
otherwise follow it as a portal only when its platform is a `PLATFORMS`
key; break when the global cap is reached. -/
def collectLoop (fetch : String → Except String (List Anchor)) (today : String) :
    List Src → List Row → Nat → Except String (List Row)
  | [], rows, _ => .ok rows
  | src :: rest, rows, total =>
    let url := src.link
    let plat := _platform_of url
    if _job_like_path (urlPathOf url) && _is_internish url then
      let rows' := rows ++ [directRow today src url plat]
      let total' := total + 1
      if MAX_TOTAL_POSTINGS ≤ total' then .ok rows'
      else collectLoop fetch today rest rows' total'
    else
      match (if isKnownPlatform plat then
          portalLoop today src.company_guess url plat
            (collect_postings_from_portal (fetch url) url MAX_POSTINGS_PER_PORTAL)
            rows total
        else .ok (rows, total)) with
      | .error e => .error e
      | .ok pr =>
        if MAX_TOTAL_POSTINGS ≤ pr.2 then .ok pr.1
        else collectLoop fetch today rest pr.1 pr.2

/-- First-seen-wins dedup keyed by `link` (the semantics of
`pandas.DataFrame.drop_duplicates(subset=["link"])` and of the explicit
seen-set loops in `scraper.py`). -/
def dedupGo : List Row → List String → List Row
  | [], _ => []
  | p :: ps, seen =>
    if memStr p.link seen then dedupGo ps seen
    else p :: dedupGo ps (seen ++ [p.link])

/-- Entry point of the dedup pass. -/
def dedupByLink (rows : List Row) : List Row := dedupGo rows []

/-- `app.py::deep_collect_postings`: collect sources from the CSUSB page
(a seed fetch failure and the company-guess `IndexError` both propagate),
run the capped collection loop (whose portal-company `IndexError` also
propagates), then dedup by link. `today` stands for
`datetime.utcnow().date().isoformat()`. -/
def deep_collect_postings (fetch : String → Except String (List Anchor))
    (today : String) : Except String (List Row) :=
  match scrape_csusb_links fetch with
  | .error e => .error e
  | .ok sources =>
    match collectLoop fetch today sources [] 0 with
    | .error e => .error e
    | .ok rows => .ok (dedupByLink rows)

/-- First row of a list carrying a given link (specification-side helper for
the first-seen-wins property). -/
def firstWithLink (link : String) : List Row → Option Row
  | [] => none
  | r :: rs => if r.link = link then some r else firstWithLink link rs

/-! ## auto_apply.py — platform resolution and the submission batch -/

/-- `auto_apply.py::_platform_for`: the two ATS fragments are matched
against the entire lower-cased URL (not only its hostname). -/
def _platform_for (url : String) : String :=
  let u := lowerStr url
  if strContains u "greenhouse.io" then "greenhouse"
  else if strContains u "lever.co" then "lever"
  else "other"

/-- A selected posting handed to `auto_apply_batch`
(`item.get("title")/("company")/("link")`). -/
structure SelItem where
  title : String
  company : String
  link : String
deriving DecidableEq, Repr

/-- The `{"platform","status","final_url"}` dict produced by `_apply_one`. -/
structure AppCore where
  platform : String
  status : String
  final_url : String
deriving DecidableEq, Repr

/-- An entry of `auto_apply_batch`'s output (`_apply_one`'s dict updated
with the echoed title/company/url). -/
structure AppOutcome where
  platform : String
  status : String
  final_url : String
  title : String
  company : String
  url : String
deriving DecidableEq, Repr

/-- `auto_apply.py::_apply_one`, caught-dispatch view: the result dict of a
call whose context creation succeeded. `gh` and `lv` model the
`_apply_greenhouse`/`_apply_lever` form-fill attempts: `Except.ok dest` is
the page URL they return, `Except.error e` an exception raised during the
attempt — caught by `_apply_one`'s `try` handler, which records
`status = "error: ..."` and `dest = url`. `browser.new_context()` and
`ctx.new_page()` sit **outside** that `try` (and `ctx.close()` in its
`finally`), so an exception there escapes `_apply_one`; that uncaught path
is modelled by `_apply_one_ctx` below. -/
def _apply_one (gh lv : String → Except String String) (url : String) : AppCore :=
  let platform := _platform_for url
  if platform = "greenhouse" then
    match gh url with
    | .ok dest => ⟨platform, "submitted_or_attempted", dest⟩
    | .error e => ⟨platform, "error: " ++ e, url⟩
  else if platform = "lever" then
    match lv url with
    | .ok dest => ⟨platform, "submitted_or_attempted", dest⟩
    | .error e => ⟨platform, "error: " ++ e, url⟩
  else ⟨platform, "manual_required", url⟩

/-- One iteration of `auto_apply_batch`'s loop: run `_apply_one` on
`item["link"]` and echo the item's title/company/url into the result. -/
def applyItem (gh lv : String → Except String String) (item : SelItem) : AppOutcome :=
  let url := item.link
  let c := _apply_one gh lv url
  ⟨c.platform, c.status, c.final_url, item.title, item.company, url⟩

/-- The `for item in selected` loop of `auto_apply_batch`, accumulating
`out`. -/
def applyLoop (gh lv : String → Except String String) :
    List SelItem → List AppOutcome → List AppOutcome
  | [], out => out
  | item :: rest, out => applyLoop gh lv rest (out ++ [applyItem gh lv item])

/-- `auto_apply.py::auto_apply_batch`, caught-dispatch view: the outcome
list the loop accumulates while no uncaught exception occurs — the value
`auto_apply_batch_exc` below returns when browser launch and every
per-target context creation succeed. The uncaught exception paths the
source propagates (`chromium.launch`, context creation inside the loop)
are modelled by `auto_apply_batch_exc` and `auto_apply_batch_fs`. -/
def auto_apply_batch (gh lv : String → Except String String)
    (selected : List SelItem) : List AppOutcome :=
  applyLoop gh lv selected []

/-- `auto_apply.py::_apply_one`, exception-aware view. `ctxOf url` models
the `browser.new_context()` / `ctx.new_page()` calls, which precede the
`try` block: when they raise, the exception escapes `_apply_one`; when
they succeed, the rest of the call is the caught dispatch `_apply_one`. -/
def _apply_one_ctx (ctxOf : String → Except String Unit)
    (gh lv : String → Except String String) (url : String) :
    Except String AppCore :=
  match ctxOf url with
  | .error e => .error e
  | .ok _ => .ok (_apply_one gh lv url)

/-- One iteration of `auto_apply_batch`'s loop, exception-aware: a raising
context creation propagates, otherwise the result record is built as in
`applyItem`. -/
def applyItemCtx (ctxOf : String → Except String Unit)
    (gh lv : String → Except String String) (item : SelItem) :
    Except String AppOutcome :=
  match _apply_one_ctx ctxOf gh lv item.link with
  | .error e => .error e
  | .ok c => .ok ⟨c.platform, c.status, c.final_url, item.title, item.company, item.link⟩

/-! ## auto_apply.py — temp-file lifecycle (effectful view)

The state is the set of existing temporary files, as a list of paths.
`launch` models `p.chromium.launch(...)` (browser setup), and `attempt`
models one `_apply_one(...)` call: `Except.error` stands for an exception
escaping it (its `try` only guards the platform dispatch, so e.g.
`browser.new_context()` can raise through), while caught form-fill failures
come back as `Except.ok` with an error status. -/

/-- Batch result paired with the final temp-file state. -/
structure FsBatch where
  result : Except String (List AppOutcome)
  files : List String
deriving Repr

/-- `auto_apply.py::_save_temp_file`: empty bytes produce no file and the
path `""`; otherwise `mkstemp` creates a file at the fresh path and the
bytes are written to it. Bytes are modelled as a list of byte values. -/
def _save_temp_file (bytes : List Nat) (fresh : String) (fs : List String) :
    String × List String :=
  if bytes.isEmpty then ("", fs) else (fresh, fs ++ [fresh])

/-- The batch loop, propagating an exception that escapes an iteration. -/
def batchLoop (attempt : SelItem → Except String AppOutcome) :
    List SelItem → List AppOutcome → Except String (List AppOutcome)
  | [], out => .ok out
  | item :: rest, out =>
    match attempt item with
    | .error e => .error e
    | .ok r => batchLoop attempt rest (out ++ [r])

/-- `auto_apply.py::auto_apply_batch`, exception-aware result view: the
loop over the selected targets, where an exception escaping `_apply_one`
(context creation) aborts the batch and propagates to the caller. -/
def auto_apply_batch_exc (ctxOf : String → Except String Unit)
    (gh lv : String → Except String String) (selected : List SelItem) :
    Except String (List AppOutcome) :=
  batchLoop (applyItemCtx ctxOf gh lv) selected []

/-- `auto_apply.py::auto_apply_batch`, temp-file view. The source removes
the résumé file only on the fall-through path after the `async with` block:
an exception from browser setup or from the loop propagates before the
`os.remove`, which is not in a `finally`. -/
def auto_apply_batch_fs (launch : Except String Unit)
    (attempt : SelItem → Except String AppOutcome) (resumeBytes : List Nat)
    (selected : List SelItem) (fresh : String) (fs0 : List String) : FsBatch :=
  let sp := _save_temp_file resumeBytes fresh fs0
  let resume_path := sp.1
  let fs1 := sp.2
  match launch with
  | .error e => ⟨.error e, fs1⟩
  | .ok _ =>
    match batchLoop attempt selected [] with
    | .error e => ⟨.error e, fs1⟩
    | .ok out =>
      let fs2 := if resume_path.isEmpty then fs1
                 else fs1.filter fun q => q ≠ resume_path
      ⟨.ok out, fs2⟩

/-! ## backend_navigator.py — the bounded LLM-guided navigator -/

/-- A link dict as produced by `PlaywrightFetcher._extract_links`. -/
structure NavLink where
  text : String
  url : String
deriving DecidableEq, Repr

/-- What `navigate_to_jobs` reads off a fetched page: the extracted text,
the extracted links, and the verdict of the `has_job_listings` heuristic
(a pure function of the page's HTML and text, abstracted as a field). -/
structure NavPage where
  text : String
  links : List NavLink
  listings : Bool
deriving Repr

/-- The decision parsed from the LLM's JSON (`action` plus optional `url`);
a missing/unknown action and every LLM error default to `stop`. -/
inductive NavAction where
  | foundJobs : NavAction
  | visitUrl : String → NavAction
  | stop : NavAction
deriving DecidableEq, Repr

/-- Outcome of `LLMNavigator.navigate_to_jobs`, extended with the
navigator's visited set and the trace of URLs actually fetched. -/
structure NavResult where
  finalUrl : Option String
  links : List NavLink
  visited : List String
  fetched : List String
deriving Repr

/-- The `visit_url` handling of `navigate_to_jobs` (its lines after the
LLM picks `visit_url`): strip the proposed URL, end the path when it is
empty, resolve it against the current URL unless it starts with `http`,
and — when it was already visited — substitute the first of the page's
first five links whose URL is non-empty and unvisited, or end the path.
Returns the URL the path moves to, `none` when the path ends here. -/
def nextCandidate (visited : List String) (links : List NavLink)
    (current u0 : String) : Option String :=
  let u1 := trimStr u0
  if u1.isEmpty then none
  else
    let u := if startsWithStr u1 "http" then u1 else urljoinM current u1
    if memStr u visited then
      match (links.take 5).find? (fun l => !l.url.isEmpty && !memStr l.url visited) with
      | some l => some l.url
      | none => none
    else some u

/-- The `while hop_count < max_hops` loop of `navigate_to_jobs`. `fuel` is
the number of remaining hops; `fetch` models `fetch_url` (`none` = failed
fetch); `oracle current hop page` models `get_llm_navigation_decision`.
`lastLinks` carries the previous iteration's `links` for the post-loop
return (at `maxHops = 0` CPython would hit an unbound local there; the
model returns the initial `[]`). On an oracle URL already in the visited
set, the first of the first five links not yet visited is substituted, or
the path ends; the chosen URL is added to the visited set before it is ever
fetched. -/
def navLoop (fetch : String → Option NavPage)
    (oracle : String → Nat → NavPage → NavAction) (maxHops : Nat) :
    Nat → String → List String → List String → List NavLink → NavResult
  | 0, current, visited, fetched, lastLinks =>
    ⟨some current, lastLinks, visited, fetched⟩
  | fuel + 1, current, visited, fetched, _ =>
    let fetched' := fetched ++ [current]
    match fetch current with
    | none => ⟨none, [], visited, fetched'⟩
    | some page =>
      if page.links.isEmpty then
        if page.listings then ⟨some current, page.links, visited, fetched'⟩
        else ⟨none, [], visited, fetched'⟩
      else if page.listings then ⟨some current, page.links, visited, fetched'⟩
      else
        match oracle current (maxHops - fuel) page with
        | .foundJobs => ⟨some current, page.links, visited, fetched'⟩
        | .stop => ⟨none, [], visited, fetched'⟩
        | .visitUrl u0 =>
          match nextCandidate visited page.links current u0 with
          | none => ⟨none, [], visited, fetched'⟩
          | some nxt =>
            navLoop fetch oracle maxHops fuel nxt (visited ++ [nxt]) fetched' page.links

/-- `LLMNavigator.navigate_to_jobs` on a fresh navigator: the start URL is
put into the visited set, then the hop loop runs with budget `maxHops`. -/
def navigate_to_jobs (fetch : String → Option NavPage)
    (oracle : String → Nat → NavPage → NavAction) (maxHops : Nat)
    (startUrl : String) : NavResult :=
  navLoop fetch oracle maxHops maxHops startUrl [startUrl] [] []

/-! ## playwright_fetcher.py — the revisit-refusing fetcher -/

/-- The per-instance state of `PlaywrightFetcher`: its `visited_urls` set. -/
structure Fetcher where
  visited : List String
deriving Repr

/-- `PlaywrightFetcher.fetch_html`: a URL already in `visited_urls` is
refused with `none` before any navigation; otherwise the URL is recorded
and the page loaded. `world url` models the browser round-trip (`none` =
timeout or any other exception). -/
def fetch_html (world : String → Option String) (f : Fetcher) (url : String) :
    Option String × Fetcher :=
  if memStr url f.visited then (none, f)
  else
    let f' : Fetcher := ⟨f.visited ++ [url]⟩
    (world url, f')

/-- `PlaywrightFetcher.extract_text_and_links`: fetch, then parse; a falsy
fetch result yields `("", [])`. `parse html url` abstracts the
BeautifulSoup text extraction and `_extract_links`. -/
def extract_text_and_links (world : String → Option String)
    (parse : String → String → String × List NavLink) (f : Fetcher)
    (url : String) : (String × List NavLink) × Fetcher :=
  match fetch_html world f url with
  | (none, f') => (("", []), f')
  | (some html, f') => (parse html url, f')

/-! ## List lemmas for the membership and no-duplicate helpers -/

theorem memStr_append (x : String) (l m : List String) :
    memStr x (l ++ m) = (memStr x l || memStr x m) := by
  induction l with
  | nil => simp [memStr]
  | cons y ys ih =>
    by_cases h : x = y <;> simp [memStr, h, ih]

theorem memStr_self_append (x : String) (l : List String) :
    memStr x (l ++ [x]) = true := by
  simp [memStr_append, memStr]

theorem memStr_singleton (x y : String) :
    memStr x [y] = if x = y then true else false := by
  by_cases h : x = y <;> simp [memStr, h]

theorem nodupStr_append_one (l : List String) (x : String)
    (h1 : nodupStr l = true) (h2 : memStr x l = false) :
    nodupStr (l ++ [x]) = true := by
  induction l with
  | nil => simp [nodupStr, memStr]
  | cons y ys ih =>
    simp only [memStr] at h2
    by_cases hxy : x = y
    · simp [hxy] at h2
    · simp only [if_neg hxy] at h2
      simp only [nodupStr, Bool.and_eq_true, Bool.not_eq_true'] at h1
      have hys := ih h1.2 h2
      simp only [List.cons_append, nodupStr, Bool.and_eq_true, Bool.not_eq_true']
      refine ⟨?_, hys⟩
      show memStr y (ys ++ [x]) = false
      rw [memStr_append, h1.1, memStr_singleton, if_neg (fun h => hxy h.symm)]
      rfl

theorem allMemStr_mono (f l : List String) (x : String)
    (h : allMemStr f l = true) : allMemStr f (l ++ [x]) = true := by
  induction f with
  | nil => rfl
  | cons c cs ih =>
    simp only [allMemStr, Bool.and_eq_true] at h ⊢
    exact ⟨by rw [memStr_append, h.1]; rfl, ih h.2⟩

theorem allMemStr_append_one (f l : List String) (c : String)
    (h1 : allMemStr f l = true) (h2 : memStr c l = true) :
    allMemStr (f ++ [c]) l = true := by
  induction f with
  | nil => simp [allMemStr, h2]
  | cons a as ih =>
    simp only [allMemStr, Bool.and_eq_true] at h1 ⊢
    exact ⟨h1.1, ih h1.2⟩

theorem allMemStr_not_mem (f l : List String) (x : String)
    (h1 : allMemStr f l = true) (h2 : memStr x l = false) :
    memStr x f = false := by
  induction f with
  | nil => rfl
  | cons a as ih =>
    simp only [allMemStr, Bool.and_eq_true] at h1
    simp only [memStr]
    by_cases hxa : x = a
    · rw [hxa] at h2; rw [h2] at h1; exact absurd h1.1 (by simp)
    · simp only [if_neg hxa]; exact ih h1.2

/-! ## Claim C10 — the fetcher never refetches a requested URL -/

/-- C10: on one `PlaywrightFetcher` instance, every requested URL is
recorded in `visited_urls`, a second `fetch_html` of the same URL returns
`None` even when the first call succeeded, and `extract_text_and_links`
on a revisited URL returns empty text and no links. -/
theorem c10_fetcher_refuses_revisit
    (world : String → Option String)
    (parse : String → String → String × List NavLink)
    (f : Fetcher) (url : String) :
    memStr url (fetch_html world f url).2.visited = true
    ∧ (fetch_html world (fetch_html world f url).2 url).1 = none
    ∧ (extract_text_and_links world parse (fetch_html world f url).2 url).1 = ("", []) := by
  by_cases h : memStr url f.visited = true
  · simp [fetch_html, h, extract_text_and_links]
  · have h' : memStr url f.visited = false := by
      revert h; cases memStr url f.visited <;> simp
    have hmem : memStr url (f.visited ++ [url]) = true := memStr_self_append url f.visited
    simp [fetch_html, h', hmem, extract_text_and_links]

/-! ## Claim C2 — one result per target, and where that breaks -/

/-- The batch loop is the map of `applyItem` appended to the accumulator. -/
theorem applyLoop_eq_map (gh lv : String → Except String String) :
    ∀ (sel : List SelItem) (out : List AppOutcome),
      applyLoop gh lv sel out = out ++ sel.map (applyItem gh lv) := by
  intro sel
  induction sel with
  | nil => intro out; simp [applyLoop]
  | cons item rest ih =>
    intro out
    simp only [applyLoop, List.map, ih, List.append_assoc, List.singleton_append]

/-- `List.get?` commutes with `List.map`. -/
theorem getq_map {α β : Type} (f : α → β) :
    ∀ (l : List α) (i : Nat), (l.map f).get? i = (l.get? i).map f := by
  intro l
  induction l with
  | nil => intro i; cases i <;> rfl
  | cons a as ih => intro i; cases i with
    | zero => rfl
    | succ j => simp only [List.map_cons, List.get?_cons_succ]; exact ih j

/-- The caught-dispatch batch is the per-item map: one record per target,
in input order. -/
theorem auto_apply_batch_map_spec
    (gh lv : String → Except String String) (selected : List SelItem) :
    (auto_apply_batch gh lv selected).length = selected.length
    ∧ ∀ i : Nat, (auto_apply_batch gh lv selected).get? i
        = (selected.get? i).map (applyItem gh lv) := by
  constructor
  · rw [auto_apply_batch, applyLoop_eq_map, List.nil_append, List.length_map]
  · intro i
    rw [auto_apply_batch, applyLoop_eq_map, List.nil_append, getq_map]

/-- When the context creation for an item succeeds, the exception-aware
iteration coincides with the caught-dispatch one. -/
theorem applyItemCtx_ok (ctxOf : String → Except String Unit)
    (gh lv : String → Except String String) (item : SelItem)
    (h : ctxOf item.link = Except.ok ()) :
    applyItemCtx ctxOf gh lv item = Except.ok (applyItem gh lv item) := by
  unfold applyItemCtx _apply_one_ctx
  rw [h]
  rfl

/-- With context creation succeeding everywhere, the exception-aware batch
loop returns the caught-dispatch accumulation. -/
theorem batchLoop_ctx_ok (ctxOf : String → Except String Unit)
    (gh lv : String → Except String String)
    (hctx : ∀ u : String, ctxOf u = Except.ok ()) :
    ∀ (sel : List SelItem) (out : List AppOutcome),
      batchLoop (applyItemCtx ctxOf gh lv) sel out
        = Except.ok (applyLoop gh lv sel out) := by
  intro sel
  induction sel with
  | nil => intro out; rfl
  | cons item rest ih =>
    intro out
    simp only [batchLoop, applyLoop, applyItemCtx_ok ctxOf gh lv item (hctx item.link)]
    exact ih (out ++ [applyItem gh lv item])

/-- Counterexample to C2: `browser.new_context()` / `ctx.new_page()` sit
outside `_apply_one`'s `try`, so a per-target exception there propagates to
the caller — a batch of one target returns an error and zero
`SubmissionResult`s, not one result per target. -/
theorem c2_ctx_exception_aborts_batch_cex :
    auto_apply_batch_exc (fun _ => Except.error "browser.new_context failed")
        (fun u => Except.ok u) (fun u => Except.ok u)
        [⟨"Intern", "Acme", "https://boards.greenhouse.io/acme/jobs/1"⟩]
      = Except.error "browser.new_context failed" := rfl

/-- C2 (amended): whenever browser launch and every per-target context
creation succeed, the batch returns exactly one result per input target in
input order — the i-th result is built from the i-th target — even when
the form-fill attempt raises internally, since `_apply_one`'s handler
records those as error statuses; but an exception from context creation
(outside that handler) or from browser launch propagates to the caller and
aborts the batch. -/
theorem c2_batch_one_result_when_ctx_ok (ctxOf : String → Except String Unit)
    (gh lv : String → Except String String) (selected : List SelItem)
    (hctx : ∀ u : String, ctxOf u = Except.ok ()) :
    auto_apply_batch_exc ctxOf gh lv selected
      = Except.ok (auto_apply_batch gh lv selected)
    ∧ (auto_apply_batch gh lv selected).length = selected.length
    ∧ ∀ i : Nat, (auto_apply_batch gh lv selected).get? i
        = (selected.get? i).map (applyItem gh lv) := by
  refine ⟨?_, auto_apply_batch_map_spec gh lv selected⟩
  unfold auto_apply_batch_exc auto_apply_batch
  exact batchLoop_ctx_ok ctxOf gh lv hctx selected []

/-- Witness for C2 (amended): one raising greenhouse form-fill attempt,
context creation fine — the batch returns exactly one recorded result. -/
theorem c2_batch_one_result_when_ctx_ok_witness :
    auto_apply_batch_exc (fun _ => Except.ok ()) (fun _ => Except.error "fill failed")
        (fun u => Except.ok u)
        [⟨"Intern", "Acme", "https://boards.greenhouse.io/acme/jobs/1"⟩]
      = Except.ok (auto_apply_batch (fun _ => Except.error "fill failed")
          (fun u => Except.ok u)
          [⟨"Intern", "Acme", "https://boards.greenhouse.io/acme/jobs/1"⟩])
    ∧ (auto_apply_batch (fun _ => Except.error "fill failed") (fun u => Except.ok u)
        [⟨"Intern", "Acme", "https://boards.greenhouse.io/acme/jobs/1"⟩]).length
      = [(⟨"Intern", "Acme", "https://boards.greenhouse.io/acme/jobs/1"⟩ : SelItem)].length
    ∧ auto_apply_batch (fun _ => Except.error "fill failed") (fun u => Except.ok u)
        [⟨"Intern", "Acme", "https://boards.greenhouse.io/acme/jobs/1"⟩]
      = [⟨"greenhouse", "error: fill failed", "https://boards.greenhouse.io/acme/jobs/1",
          "Intern", "Acme", "https://boards.greenhouse.io/acme/jobs/1"⟩] := by
  have h := c2_batch_one_result_when_ctx_ok (fun _ => Except.ok ())
    (fun _ => Except.error "fill failed") (fun u => Except.ok u)
    [⟨"Intern", "Acme", "https://boards.greenhouse.io/acme/jobs/1"⟩] (fun _ => rfl)
  exact ⟨h.1, h.2.1, rfl⟩

/-! ## Claim C5 — unsupported platforms are never attempted -/

/-- C5: when the platform resolves to `"other"`, the per-target result is
`manual_required` with `final_url` equal to the input URL and platform
`"other"`, and the outcome is independent of the form fillers — no
navigation or fill step is consulted at all. -/
theorem c5_other_platform_manual_required
    (gh lv gh' lv' : String → Except String String) (item : SelItem)
    (h : _platform_for item.link = "other") :
    applyItem gh lv item
      = ⟨"other", "manual_required", item.link, item.title, item.company, item.link⟩
    ∧ applyItem gh lv item = applyItem gh' lv' item := by
  have hg : _platform_for item.link ≠ "greenhouse" := by rw [h]; decide
  have hl : _platform_for item.link ≠ "lever" := by rw [h]; decide
  constructor
  · simp [applyItem, _apply_one, hg, hl, h]
  · simp [applyItem, _apply_one, hg, hl]

/-- Witness for C5 at a concrete non-ATS URL. -/
theorem c5_other_platform_manual_required_witness :
    _platform_for "https://jobs.example.com/apply/123" = "other"
    ∧ applyItem (fun _ => .error "boom") (fun _ => .error "boom")
        ⟨"Intern", "Example", "https://jobs.example.com/apply/123"⟩
      = ⟨"other", "manual_required", "https://jobs.example.com/apply/123",
         "Intern", "Example", "https://jobs.example.com/apply/123"⟩ := by
  refine ⟨rfl, ?_⟩
  exact (c5_other_platform_manual_required (fun _ => .error "boom")
    (fun _ => .error "boom") (fun _ => .ok "x") (fun _ => .ok "x")
    ⟨"Intern", "Example", "https://jobs.example.com/apply/123"⟩ rfl).1

/-! ## Claim C1 — hop budget and cycle safety of the navigator -/

/-- The URL `nextCandidate` moves to is never one already in the visited
set (either the normalized oracle pick was fresh, or the substituted
alternative was chosen for being unvisited). -/
theorem nextCandidate_not_visited (visited : List String) (links : List NavLink)
    (current u0 nxt : String)
    (h : nextCandidate visited links current u0 = some nxt) :
    memStr nxt visited = false := by
  unfold nextCandidate at h
  by_cases h1 : (trimStr u0).isEmpty = true
  · simp [h1] at h
  · simp only [h1, if_false, Bool.false_eq_true] at h
    by_cases hv : memStr (if startsWithStr (trimStr u0) "http" = true then trimStr u0
        else urljoinM current (trimStr u0)) visited = true
    · rw [if_pos hv] at h
      cases hfind : (links.take 5).find? (fun l => !l.url.isEmpty && !memStr l.url visited) with
      | none => rw [hfind] at h; exact absurd h (by simp)
      | some l =>
        rw [hfind] at h
        have hp := List.find?_some hfind
        have : nxt = l.url := by
          injection h with h'; exact h'.symm
        rw [this]
        simp only [Bool.and_eq_true, Bool.not_eq_true'] at hp
        exact hp.2
    · rw [if_neg hv] at h
      injection h with h'
      rw [← h']
      revert hv
      cases memStr (if startsWithStr (trimStr u0) "http" = true then trimStr u0
        else urljoinM current (trimStr u0)) visited <;> simp

/-- Invariant of the navigation loop: starting from a state whose current
URL is in the (duplicate-free) visited set and whose fetch trace is
duplicate-free, contained in the visited set, and does not yet contain the
current URL, the loop preserves all of that and grows the visited set by at
most `fuel` entries. -/
theorem navLoop_inv (fetch : String → Option NavPage)
    (oracle : String → Nat → NavPage → NavAction) (maxHops : Nat) :
    ∀ (fuel : Nat) (current : String) (visited fetched : List String)
      (lastLinks : List NavLink),
      memStr current visited = true →
      nodupStr visited = true →
      nodupStr fetched = true →
      allMemStr fetched visited = true →
      memStr current fetched = false →
      nodupStr (navLoop fetch oracle maxHops fuel current visited fetched lastLinks).visited = true
      ∧ nodupStr (navLoop fetch oracle maxHops fuel current visited fetched lastLinks).fetched = true
      ∧ allMemStr (navLoop fetch oracle maxHops fuel current visited fetched lastLinks).fetched
          (navLoop fetch oracle maxHops fuel current visited fetched lastLinks).visited = true
      ∧ (navLoop fetch oracle maxHops fuel current visited fetched lastLinks).visited.length
          ≤ visited.length + fuel := by
  intro fuel
  induction fuel with
  | zero =>
    intro current visited fetched lastLinks h1 h2 h3 h4 h5
    exact ⟨h2, h3, h4, Nat.le_add_right _ _⟩
  | succ fuel ih =>
    intro current visited fetched lastLinks h1 h2 h3 h4 h5
    have hfet : nodupStr (fetched ++ [current]) = true := nodupStr_append_one _ _ h3 h5
    have hall : allMemStr (fetched ++ [current]) visited = true :=
      allMemStr_append_one _ _ _ h4 h1
    have hlen : visited.length ≤ visited.length + (fuel + 1) := Nat.le_add_right _ _
    simp only [navLoop]
    cases hf : fetch current with
    | none => exact ⟨h2, hfet, hall, hlen⟩
    | some page =>
      by_cases hemp : page.links.isEmpty = true
      · simp only [hemp, if_true]
        by_cases hl : page.listings = true
        · simp only [hl, if_true]; exact ⟨h2, hfet, hall, hlen⟩
        · simp only [hl, Bool.false_eq_true, if_false]; exact ⟨h2, hfet, hall, hlen⟩
      · simp only [hemp, Bool.false_eq_true, if_false]
        by_cases hl : page.listings = true
        · simp only [hl, if_true]; exact ⟨h2, hfet, hall, hlen⟩
        · simp only [hl, Bool.false_eq_true, if_false]
          cases ho : oracle current (maxHops - fuel) page with
          | foundJobs => exact ⟨h2, hfet, hall, hlen⟩
          | stop => exact ⟨h2, hfet, hall, hlen⟩
          | visitUrl u0 =>
            dsimp only
            cases hnc : nextCandidate visited page.links current u0 with
            | none => exact ⟨h2, hfet, hall, hlen⟩
            | some nxt =>
              dsimp only
              have hnv : memStr nxt visited = false :=
                nextCandidate_not_visited visited page.links current u0 nxt hnc
              have r := ih nxt (visited ++ [nxt]) (fetched ++ [current]) page.links
                (memStr_self_append nxt visited)
                (nodupStr_append_one _ _ h2 hnv)
                hfet
                (allMemStr_mono _ _ nxt hall)
                (allMemStr_not_mem _ _ nxt hall hnv)
              refine ⟨r.1, r.2.1, r.2.2.1, ?_⟩
              have := r.2.2.2
              simp only [List.length_append, List.length_singleton] at this
              omega

/-- C1: every navigation run with hop budget `maxHops` visits at most
`maxHops + 1` distinct URLs and fetches no URL more than once: the visited
set and the fetch trace are duplicate-free, every fetched URL is in the
visited set (a visited URL is never refetched — if the oracle picks one, an
unvisited alternative is substituted or the path ends), and the visited set
has at most `maxHops + 1` entries. -/
theorem c1_nav_hop_budget_and_cycle_safety (fetch : String → Option NavPage)
    (oracle : String → Nat → NavPage → NavAction) (maxHops : Nat) (startUrl : String) :
    nodupStr (navigate_to_jobs fetch oracle maxHops startUrl).visited = true
    ∧ nodupStr (navigate_to_jobs fetch oracle maxHops startUrl).fetched = true
    ∧ allMemStr (navigate_to_jobs fetch oracle maxHops startUrl).fetched
        (navigate_to_jobs fetch oracle maxHops startUrl).visited = true
    ∧ (navigate_to_jobs fetch oracle maxHops startUrl).visited.length ≤ maxHops + 1 := by
  have r := navLoop_inv fetch oracle maxHops maxHops startUrl [startUrl] [] []
    (by simp [memStr]) (by simp [nodupStr, memStr]) rfl rfl rfl
  refine ⟨r.1, r.2.1, r.2.2.1, ?_⟩
  have := r.2.2.2
  simpa [navigate_to_jobs, Nat.add_comm] using this

/-! ## Claim C3 — link dedup is first-seen-wins -/

theorem memStr_map_false {α : Type} (f : α → String) (x : String) :
    ∀ l : List α, (∀ a ∈ l, f a ≠ x) → memStr x (l.map f) = false := by
  intro l
  induction l with
  | nil => intro _; rfl
  | cons a as ih =>
    intro h
    simp only [List.map_cons, memStr]
    rw [if_neg fun he => h a (List.mem_cons_self a as) he.symm]
    exact ih fun b hb => h b (List.mem_cons_of_mem a hb)

/-- Every survivor of the dedup pass has a link outside the incoming seen
set and is exactly the first row of the input stream carrying its link. -/
theorem dedupGo_first_seen :
    ∀ (rows : List Row) (seen : List String) (r : Row), r ∈ dedupGo rows seen →
      memStr r.link seen = false ∧ firstWithLink r.link rows = some r := by
  intro rows
  induction rows with
  | nil => intro seen r h; simp [dedupGo] at h
  | cons p ps ih =>
    intro seen r h
    by_cases hp : memStr p.link seen = true
    · rw [dedupGo, if_pos hp] at h
      have hr := ih seen r h
      refine ⟨hr.1, ?_⟩
      rw [firstWithLink, if_neg ?_]
      · exact hr.2
      · intro he; rw [he, hr.1] at hp; exact absurd hp (by simp)
    · have hp' : memStr p.link seen = false := by
        revert hp; cases memStr p.link seen <;> simp
      rw [dedupGo, if_neg (by rw [hp']; simp)] at h
      rcases List.mem_cons.mp h with he | ht
      · rw [he]
        exact ⟨hp', by rw [firstWithLink, if_pos rfl]⟩
      · have hr := ih (seen ++ [p.link]) r ht
        have hm := hr.1
        rw [memStr_append] at hm
        have h1 : memStr r.link seen = false := by
          revert hm; cases memStr r.link seen <;> simp
        have h2 : r.link ≠ p.link := by
          intro he
          rw [he, memStr_singleton, if_pos rfl] at hm
          simp at hm
        refine ⟨h1, ?_⟩
        rw [firstWithLink, if_neg fun he => h2 he.symm]
        exact hr.2

/-- The links of the dedup pass's output are pairwise distinct. -/
theorem dedupGo_nodup_links :
    ∀ (rows : List Row) (seen : List String),
      nodupStr ((dedupGo rows seen).map fun r => r.link) = true := by
  intro rows
  induction rows with
  | nil => intro seen; rfl
  | cons p ps ih =>
    intro seen
    by_cases hp : memStr p.link seen = true
    · rw [dedupGo, if_pos hp]; exact ih seen
    · have hp' : memStr p.link seen = false := by
        revert hp; cases memStr p.link seen <;> simp
      rw [dedupGo, if_neg (by rw [hp']; simp)]
      simp only [List.map_cons, nodupStr, Bool.and_eq_true, Bool.not_eq_true']
      refine ⟨?_, ih _⟩
      apply memStr_map_false
      intro r hr
      have := (dedupGo_first_seen ps (seen ++ [p.link]) r hr).1
      rw [memStr_append, memStr_singleton] at this
      intro he
      rw [he, if_pos rfl] at this
      simp at this

theorem dedupGo_length_le : ∀ (rows : List Row) (seen : List String),
    (dedupGo rows seen).length ≤ rows.length := by
  intro rows
  induction rows with
  | nil => intro seen; exact Nat.le_refl 0
  | cons p ps ih =>
    intro seen
    rw [dedupGo]
    by_cases hp : memStr p.link seen = true
    · rw [if_pos hp]; exact Nat.le_succ_of_le (ih seen)
    · rw [if_neg hp]; simpa using ih (seen ++ [p.link])

/-- C3: a completed discovery run (seed scan and collection loop finished)
returns the link-dedup of the collected row stream; the returned collection
has pairwise-distinct links, and each returned row is exactly the first
collected row with that link (duplicate links are dropped, keeping the
first-seen title/company fields). -/
theorem c3_dedup_stable_first_wins (fetch : String → Except String (List Anchor))
    (today : String) (sources : List Src) (pre : List Row)
    (h : scrape_csusb_links fetch = Except.ok sources)
    (hc : collectLoop fetch today sources [] 0 = Except.ok pre) :
    deep_collect_postings fetch today = Except.ok (dedupByLink pre)
    ∧ nodupStr ((dedupByLink pre).map fun r => r.link) = true
    ∧ ∀ r ∈ dedupByLink pre, firstWithLink r.link pre = some r := by
  refine ⟨?_, dedupGo_nodup_links _ [], fun r hr => (dedupGo_first_seen _ [] r hr).2⟩
  unfold deep_collect_postings
  rw [h]
  dsimp only
  rw [hc]

/-- A CSUSB page offering the same posting URL twice under two titles. -/
def c3Fetch : String → Except String (List Anchor) := fun u =>
  if u = CSUSB_URL then
    .ok [⟨"Intern A", "https://x.example.com/jobs/intern-123"⟩,
         ⟨"Intern B", "https://x.example.com/jobs/intern-123"⟩]
  else .error "404"

/-- The sources `scrape_csusb_links` produces for `c3Fetch`. -/
def c3Sources : List Src :=
  [⟨"Intern A", "Example", "https://x.example.com/jobs/intern-123", "x.example.com"⟩,
   ⟨"Intern B", "Example", "https://x.example.com/jobs/intern-123", "x.example.com"⟩]

/-- The first-seen row for the duplicated link of `c3Fetch`. -/
def c3RowA : Row :=
  directRow "" ⟨"Intern A", "Example", "https://x.example.com/jobs/intern-123", "x.example.com"⟩
    "https://x.example.com/jobs/intern-123" "other"

/-- The row stream `c3Fetch`'s run collects before dedup: the duplicated
link appears twice, under its two titles. -/
def c3Pre : List Row :=
  [c3RowA,
   directRow "" ⟨"Intern B", "Example", "https://x.example.com/jobs/intern-123", "x.example.com"⟩
     "https://x.example.com/jobs/intern-123" "other"]

/-- Witness for C3: on `c3Fetch`, the duplicated link survives once and the
surviving row is the first-seen one (title "Intern A"). -/
theorem c3_dedup_stable_first_wins_witness :
    scrape_csusb_links c3Fetch = Except.ok c3Sources
    ∧ collectLoop c3Fetch "" c3Sources [] 0 = Except.ok c3Pre
    ∧ firstWithLink c3RowA.link c3Pre = some c3RowA := by
  refine ⟨rfl, rfl, ?_⟩
  exact (c3_dedup_stable_first_wins c3Fetch "" c3Sources c3Pre rfl rfl).2.2 c3RowA (by decide)

/-! ## Claim C4 — the global posting cap -/

theorem portalLoop_len (today guess source_url plat : String) :
    ∀ (ps : List PPost) (rows : List Row) (total : Nat) (pr : List Row × Nat),
      rows.length = total → total < MAX_TOTAL_POSTINGS →
      portalLoop today guess source_url plat ps rows total = Except.ok pr →
      pr.1.length = pr.2 ∧ pr.2 ≤ MAX_TOTAL_POSTINGS := by
  intro ps
  induction ps with
  | nil =>
    intro rows total pr h1 h2 h
    rw [portalLoop] at h
    injection h with h'
    rw [← h']
    exact ⟨h1, Nat.le_of_lt h2⟩
  | cons p pr0 ih =>
    intro rows total pr h1 h2 h
    simp only [portalLoop] at h
    cases hr : portalRow today guess source_url plat p with
    | error e => rw [hr] at h; exact absurd h (by simp)
    | ok row =>
      rw [hr] at h
      dsimp only at h
      by_cases hc : MAX_TOTAL_POSTINGS ≤ total + 1
      · rw [if_pos hc] at h
        injection h with h'
        rw [← h']
        exact ⟨by simp [h1], by omega⟩
      · rw [if_neg hc] at h
        exact ih _ _ _ (by simp [h1]) (by omega) h

theorem collectLoop_len (fetch : String → Except String (List Anchor)) (today : String) :
    ∀ (srcs : List Src) (rows : List Row) (total : Nat) (out : List Row),
      rows.length = total → total < MAX_TOTAL_POSTINGS →
      collectLoop fetch today srcs rows total = Except.ok out →
      out.length ≤ MAX_TOTAL_POSTINGS := by
  intro srcs
  induction srcs with
  | nil =>
    intro rows total out h1 h2 h
    rw [collectLoop] at h
    injection h with h'
    rw [← h', h1]
    exact Nat.le_of_lt h2
  | cons src rest ih =>
    intro rows total out h1 h2 h
    simp only [collectLoop] at h
    by_cases hd : (_job_like_path (urlPathOf src.link) && _is_internish src.link) = true
    · rw [if_pos hd] at h
      by_cases hc : MAX_TOTAL_POSTINGS ≤ total + 1
      · rw [if_pos hc] at h
        injection h with h'
        rw [← h']
        simp only [List.length_append, List.length_singleton, h1]
        omega
      · rw [if_neg hc] at h
        exact ih _ _ _ (by simp [h1]) (by omega) h
    · rw [if_neg hd] at h
      by_cases hk : isKnownPlatform (_platform_of src.link) = true
      · rw [if_pos hk] at h
        cases hp : portalLoop today src.company_guess src.link (_platform_of src.link)
            (collect_postings_from_portal (fetch src.link) src.link MAX_POSTINGS_PER_PORTAL)
            rows total with
        | error e => rw [hp] at h; exact absurd h (by simp)
        | ok pr =>
          rw [hp] at h
          dsimp only at h
          have hlen := portalLoop_len today src.company_guess src.link (_platform_of src.link)
            (collect_postings_from_portal (fetch src.link) src.link MAX_POSTINGS_PER_PORTAL)
            rows total pr h1 h2 hp
          by_cases hc : MAX_TOTAL_POSTINGS ≤ pr.2
          · rw [if_pos hc] at h
            injection h with h'
            rw [← h', hlen.1]
            exact hlen.2
          · rw [if_neg hc] at h
            exact ih _ _ _ hlen.1 (by omega) h
      · rw [if_neg hk] at h
        dsimp only at h
        rw [if_neg (by omega : ¬ MAX_TOTAL_POSTINGS ≤ total)] at h
        exact ih rows total out h1 h2 h

/-- C4: a completed discovery run never returns more than
`MAX_TOTAL_POSTINGS` rows, whatever the seeds and portals offer. -/
theorem c4_global_posting_cap (fetch : String → Except String (List Anchor))
    (today : String) (out : List Row)
    (h : deep_collect_postings fetch today = Except.ok out) :
    out.length ≤ MAX_TOTAL_POSTINGS := by
  unfold deep_collect_postings at h
  cases hs : scrape_csusb_links fetch with
  | error e => rw [hs] at h; exact absurd h (by simp)
  | ok sources =>
    rw [hs] at h
    dsimp only at h
    cases hc : collectLoop fetch today sources [] 0 with
    | error e => rw [hc] at h; exact absurd h (by simp)
    | ok rows =>
      rw [hc] at h
      have hout : out = dedupByLink rows := by injection h with h'; exact h'.symm
      rw [hout, dedupByLink]
      exact Nat.le_trans (dedupGo_length_le _ [])
        (collectLoop_len fetch today sources [] 0 rows rfl (by decide) hc)

/-- Witness for C4 at a concrete (empty-page) fetch. -/
theorem c4_global_posting_cap_witness :
    deep_collect_postings (fun _ => Except.ok []) "" = Except.ok []
    ∧ ([] : List Row).length ≤ MAX_TOTAL_POSTINGS :=
  ⟨rfl, c4_global_posting_cap (fun _ => Except.ok []) "" [] rfl⟩

/-! ## Claim C6 — failure containment in the discovery run -/

/-- A world in which every fetch — including the CSUSB seed page — fails. -/
def c6Fetch : String → Except String (List Anchor) := fun _ => .error "timeout"

/-- Counterexample to C6: when the institutional seed page fetch fails, the
run does not return a (possibly empty) posting list — `_read_url`'s
exception propagates out of `deep_collect_postings` as a run-level
failure. -/
theorem c6_seed_fetch_failure_aborts_run_cex :
    deep_collect_postings c6Fetch "" = Except.error "timeout" := rfl

theorem pyNeg2_error (l : List String) (e : String) (h : pyNeg2 l = .error e) :
    e = pyIndexErrorMsg := by
  unfold pyNeg2 at h
  cases hl : l.reverse with
  | nil => rw [hl] at h; injection h with h'; exact h'.symm
  | cons x t =>
    rw [hl] at h
    cases t with
    | nil => injection h with h'; exact h'.symm
    | cons y t2 => exact absurd h (by simp)

theorem compGuess_error (host e : String) (h : compGuess host = .error e) :
    e = pyIndexErrorMsg := by
  unfold compGuess at h
  by_cases hh : host.isEmpty = true
  · rw [if_pos hh] at h; exact absurd h (by simp)
  · rw [if_neg hh] at h
    cases hp : pyNeg2 (splitDots host) with
    | error e0 =>
      rw [hp] at h
      simp only [Except.map] at h
      injection h with h'
      rw [← h']
      exact pyNeg2_error _ _ hp
    | ok v => rw [hp] at h; exact absurd h (by simp [Except.map])

theorem portalCompany_error (guess link e : String)
    (h : portalCompany guess link = .error e) : e = pyIndexErrorMsg := by
  unfold portalCompany at h
  by_cases hg : guess.isEmpty = true
  · rw [if_pos hg] at h
    cases hp : pyNeg2 (splitDots (netlocOf link)) with
    | error e0 =>
      rw [hp] at h
      simp only [Except.map] at h
      injection h with h'
      rw [← h']
      exact pyNeg2_error _ _ hp
    | ok v => rw [hp] at h; exact absurd h (by simp [Except.map])
  · rw [if_neg hg] at h; exact absurd h (by simp)

theorem portalRow_error (today guess source_url plat : String) (p : PPost) (e : String)
    (h : portalRow today guess source_url plat p = .error e) : e = pyIndexErrorMsg := by
  unfold portalRow at h
  cases hp : portalCompany guess p.link with
  | error e0 =>
    rw [hp] at h
    simp only [Except.map] at h
    injection h with h'
    rw [← h']
    exact portalCompany_error _ _ _ hp
  | ok v => rw [hp] at h; exact absurd h (by simp [Except.map])

/-- The only exception the seed-page scan itself can raise is the
company-guess `IndexError`. -/
theorem csusbScan_error :
    ∀ (anchors : List Anchor) (rows : List Src) (seen : List (String × String)) (e : String),
      csusbScan anchors rows seen = Except.error e → e = pyIndexErrorMsg := by
  intro anchors
  induction anchors with
  | nil => intro rows seen e h; exact absurd h (by simp [csusbScan])
  | cons a rest ih =>
    intro rows seen e h
    simp only [csusbScan] at h
    by_cases h1 : (collapseWs a.text).isEmpty = true
    · rw [if_pos h1] at h; exact ih _ _ _ h
    · rw [if_neg h1] at h
      by_cases h2 : memPair (lowerStr (collapseWs a.text), urljoinM CSUSB_URL a.href) seen = true
      · rw [if_pos h2] at h; exact ih _ _ _ h
      · rw [if_neg h2] at h
        by_cases h3 : (!_is_internish (collapseWs a.text ++ " " ++ urljoinM CSUSB_URL a.href)) = true
        · rw [if_pos h3] at h; exact ih _ _ _ h
        · rw [if_neg h3] at h
          cases hg : compGuess (hostOf (urljoinM CSUSB_URL a.href)) with
          | error e0 =>
            rw [hg] at h
            injection h with h'
            rw [← h']
            exact compGuess_error _ _ hg
          | ok comp => rw [hg] at h; exact ih _ _ _ h

/-- The only exception the portal-postings loop can raise is the
company-fallback `IndexError` (portal fetch failures are already swallowed
before it runs). -/
theorem portalLoop_error (today guess source_url plat : String) :
    ∀ (ps : List PPost) (rows : List Row) (total : Nat) (e : String),
      portalLoop today guess source_url plat ps rows total = Except.error e →
      e = pyIndexErrorMsg := by
  intro ps
  induction ps with
  | nil => intro rows total e h; exact absurd h (by simp [portalLoop])
  | cons p ps0 ih =>
    intro rows total e h
    simp only [portalLoop] at h
    cases hr : portalRow today guess source_url plat p with
    | error e0 =>
      rw [hr] at h
      injection h with h'
      rw [← h']
      exact portalRow_error _ _ _ _ _ _ hr
    | ok row =>
      rw [hr] at h
      dsimp only at h
      by_cases hc : MAX_TOTAL_POSTINGS ≤ total + 1
      · rw [if_pos hc] at h; exact absurd h (by simp)
      · rw [if_neg hc] at h; exact ih _ _ _ h

/-- The only exception the collection loop can raise is the `IndexError`:
in particular no fetch failure below the seed ever escapes it. -/
theorem collectLoop_error (fetch : String → Except String (List Anchor)) (today : String) :
    ∀ (srcs : List Src) (rows : List Row) (total : Nat) (e : String),
      collectLoop fetch today srcs rows total = Except.error e → e = pyIndexErrorMsg := by
  intro srcs
  induction srcs with
  | nil => intro rows total e h; exact absurd h (by simp [collectLoop])
  | cons src rest ih =>
    intro rows total e h
    simp only [collectLoop] at h
    by_cases hd : (_job_like_path (urlPathOf src.link) && _is_internish src.link) = true
    · rw [if_pos hd] at h
      by_cases hc : MAX_TOTAL_POSTINGS ≤ total + 1
      · rw [if_pos hc] at h; exact absurd h (by simp)
      · rw [if_neg hc] at h; exact ih _ _ _ h
    · rw [if_neg hd] at h
      by_cases hk : isKnownPlatform (_platform_of src.link) = true
      · rw [if_pos hk] at h
        cases hp : portalLoop today src.company_guess src.link (_platform_of src.link)
            (collect_postings_from_portal (fetch src.link) src.link MAX_POSTINGS_PER_PORTAL)
            rows total with
        | error e0 =>
          rw [hp] at h
          injection h with h'
          rw [← h']
          exact portalLoop_error _ _ _ _ _ _ _ _ hp
        | ok pr =>
          rw [hp] at h
          dsimp only at h
          by_cases hc : MAX_TOTAL_POSTINGS ≤ pr.2
          · rw [if_pos hc] at h; exact absurd h (by simp)
          · rw [if_neg hc] at h; exact ih _ _ _ h
      · rw [if_neg hk] at h
        dsimp only at h
        by_cases hc : MAX_TOTAL_POSTINGS ≤ total
        · rw [if_pos hc] at h; exact absurd h (by simp)
        · rw [if_neg hc] at h; exact ih _ _ _ h

/-- C6 (amended): a fetch failure below the seed is never a run-level
failure — a run can only fail with the seed-page fetch's own exception
(propagated verbatim) or with the unguarded company-guess `IndexError`;
and a failed portal fetch is swallowed by `collect_postings_from_portal`,
contributing zero postings. -/
theorem c6_failures_below_seed_contained
    (fetch : String → Except String (List Anchor)) (today : String) :
    (∀ e : String, deep_collect_postings fetch today = Except.error e →
        fetch CSUSB_URL = Except.error e ∨ e = pyIndexErrorMsg)
    ∧ ∀ (e root : String) (lim : Nat),
        collect_postings_from_portal (Except.error e) root lim = [] := by
  constructor
  · intro e h
    unfold deep_collect_postings at h
    cases hs : scrape_csusb_links fetch with
    | error e0 =>
      rw [hs] at h
      injection h with h'
      unfold scrape_csusb_links at hs
      cases hf : fetch CSUSB_URL with
      | error e1 =>
        rw [hf] at hs
        injection hs with h2
        left
        rw [h2, h']
      | ok anchors =>
        rw [hf] at hs
        right
        rw [← h']
        exact csusbScan_error _ _ _ _ hs
    | ok sources =>
      rw [hs] at h
      dsimp only at h
      cases hc : collectLoop fetch today sources [] 0 with
      | error e0 =>
        rw [hc] at h
        injection h with h'
        right
        rw [← h']
        exact collectLoop_error _ _ _ _ _ _ hc
      | ok rows => rw [hc] at h; exact absurd h (by simp)
  · intro e root lim; rfl

/-- A world whose seed page lists one known-ATS portal whose own fetch then
times out. -/
def c6FetchSeedOk : String → Except String (List Anchor) := fun u =>
  if u = CSUSB_URL then
    .ok [⟨"Greenhouse internships", "https://boards.greenhouse.io/acme"⟩]
  else .error "timeout"

/-- A seed page whose only internship anchor points at a dotless host: the
unguarded `host.split(".")[-2]` then crashes the run after a successful
seed fetch. -/
def c6FetchDotless : String → Except String (List Anchor) := fun u =>
  if u = CSUSB_URL then .ok [⟨"Internships", "https://intranet/jobs"⟩]
  else .error "404"

/-- Witness for C6 (amended): a timed-out portal branch contributes zero
postings and the run still returns `ok []`; the all-failing world's
run-level error is classified as the seed fetch's own exception; and the
dotless-host world shows the other possible run-level failure, the
company-guess `IndexError` after a successful seed fetch. -/
theorem c6_failures_below_seed_contained_witness :
    c6FetchSeedOk CSUSB_URL
      = Except.ok [⟨"Greenhouse internships", "https://boards.greenhouse.io/acme"⟩]
    ∧ deep_collect_postings c6FetchSeedOk "" = Except.ok []
    ∧ (c6Fetch CSUSB_URL = Except.error "timeout" ∨ "timeout" = pyIndexErrorMsg)
    ∧ deep_collect_postings c6FetchDotless "" = Except.error pyIndexErrorMsg
    ∧ collect_postings_from_portal (Except.error "timeout")
        "https://boards.greenhouse.io/acme" MAX_POSTINGS_PER_PORTAL = [] := by
  refine ⟨rfl, rfl, ?_, rfl, (c6_failures_below_seed_contained c6FetchSeedOk "").2 "timeout"
    "https://boards.greenhouse.io/acme" MAX_POSTINGS_PER_PORTAL⟩
  exact (c6_failures_below_seed_contained c6Fetch "").1 "timeout" rfl

/-! ## Claim C7 — generic career portals versus known-ATS portals -/

/-- The world of the claim's Scenario B: the seed page links "Careers at
Acme" to `https://acme.com/careers`, and that page contains the
posting-shaped link "Intern – Summer 2026" to `.../jobs/55667`. -/
def c7Fetch : String → Except String (List Anchor) := fun u =>
  if u = CSUSB_URL then .ok [⟨"Careers at Acme", "https://acme.com/careers"⟩]
  else if u = "https://acme.com/careers" then
    .ok [⟨"Intern – Summer 2026", "https://acme.com/jobs/55667"⟩]
  else .error "404"

/-- Counterexample to C7: on the claim's own scenario the run yields zero
postings, not one — the anchor text "Careers at Acme" carries no internship
term so the seed scan drops the link, and even an internship-labelled
`acme.com` portal is never followed because its platform resolves to
`"other"`, which is not a `PLATFORMS` key. -/
theorem c7_generic_portal_not_followed_cex :
    deep_collect_postings c7Fetch "" = Except.ok [] := rfl

/-- Same scenario but with an internship-flagged anchor text and a
known-ATS host for the portal. -/
def c7FetchAts : String → Except String (List Anchor) := fun u =>
  if u = CSUSB_URL then
    .ok [⟨"Acme Internship Careers", "https://acme.greenhouse.io/careers"⟩]
  else if u = "https://acme.greenhouse.io/careers" then
    .ok [⟨"Intern – Summer 2026", "https://acme.greenhouse.io/jobs/55667"⟩]
  else .error "404"

/-- Internship-flagged anchor text, but the portal host matches no known
ATS fragment. -/
def c7FetchOther : String → Except String (List Anchor) := fun u =>
  if u = CSUSB_URL then .ok [⟨"Acme Internships", "https://acme.com/careers"⟩]
  else if u = "https://acme.com/careers" then
    .ok [⟨"Intern – Summer 2026", "https://acme.com/jobs/55667"⟩]
  else .error "404"

/-- C7 (amended): a single generic `/careers` segment is never kept as a
direct posting (for any host, since `_job_like_path` rejects it); but the
portal is followed only when its host matches a known ATS fragment: the
greenhouse-hosted variant yields exactly one posting whose source is the
portal URL, while the same pages on a plain company host yield none. -/
theorem c7_portal_followed_only_for_known_ats :
    _job_like_path "/careers" = false
    ∧ (deep_collect_postings c7FetchAts "").map
        (fun rows => rows.map fun r => (r.title, r.link, r.source, r.platform))
      = Except.ok [("Intern – Summer 2026", "https://acme.greenhouse.io/jobs/55667",
          "https://acme.greenhouse.io/careers", "greenhouse")]
    ∧ deep_collect_postings c7FetchOther "" = Except.ok [] :=
  ⟨rfl, rfl, rfl⟩

/-! ## Claim C8 — what the platform resolvers actually match -/

/-- The key of the C8 counterexample: a known ATS fragment in the query
string of an unrelated host. -/
def c8Url : String := "https://example.com/jobs?src=greenhouse.io"

/-- Counterexample to C8: `_platform_for` (the submission resolver) does
not depend only on the hostname — `c8Url`'s hostname contains no known
fragment (the discovery resolver says `"other"`), yet `_platform_for`
returns `"greenhouse"` because the fragment occurs in the query string. -/
theorem c8_resolver_not_hostname_only_cex :
    hostOf c8Url = "example.com"
    ∧ platFragIn (hostOf c8Url) = false
    ∧ _platform_of c8Url = "other"
    ∧ _platform_for c8Url = "greenhouse" :=
  ⟨rfl, rfl, rfl, rfl⟩

theorem platLookup_other : ∀ (table : List (String × String)) (h : String),
    (table.any fun kv => strContains h kv.2) = false → platLookup table h = "other" := by
  intro table
  induction table with
  | nil => intro h _; rfl
  | cons kv rest ih =>
    intro h hh
    have h1 : strContains h kv.2 = false := by
      revert hh; simp only [List.any_cons]
      cases strContains h kv.2 <;> simp
    have h2 : (rest.any fun x => strContains h x.2) = false := by
      revert hh; simp only [List.any_cons]
      cases rest.any fun x => strContains h x.2 <;> simp
    obtain ⟨name, pat⟩ := kv
    simp only [platLookup]
    simp only at h1
    rw [h1]
    simp only [Bool.false_eq_true, if_false]
    exact ih h h2

/-- A fragment match somewhere in the table makes `platLookup` return the
key of a matching entry (the first one, by the walk's order). -/
theorem platLookup_mem_of_any : ∀ (table : List (String × String)) (hst : String),
    (table.any fun kv => strContains hst kv.2) = true →
    ∃ kv, kv ∈ table ∧ strContains hst kv.2 = true ∧ platLookup table hst = kv.1 := by
  intro table
  induction table with
  | nil => intro hst hh; exact absurd hh (by simp)
  | cons kv rest ih =>
    intro hst hh
    obtain ⟨name, pat⟩ := kv
    by_cases hk : strContains hst pat = true
    · refine ⟨(name, pat), List.mem_cons_self _ _, hk, ?_⟩
      simp only [platLookup]
      rw [if_pos hk]
    · have hk' : strContains hst pat = false := by
        revert hk; cases strContains hst pat <;> simp
      simp only [List.any_cons] at hh
      rw [hk'] at hh
      have hr : (rest.any fun x => strContains hst x.2) = true := by simpa using hh
      obtain ⟨kw, hmem, hcon, heq⟩ := ih hst hr
      refine ⟨kw, List.mem_cons_of_mem _ hmem, hcon, ?_⟩
      simp only [platLookup]
      rw [if_neg hk]
      exact heq

/-- Over a table whose keys all differ from `"other"`, a fragment match
forces a non-`"other"` result. -/
theorem platLookup_ne_other : ∀ (table : List (String × String)) (hst : String),
    (table.all fun kv => kv.1 ≠ "other") = true →
    (table.any fun kv => strContains hst kv.2) = true →
    platLookup table hst ≠ "other" := by
  intro table
  induction table with
  | nil => intro hst _ hany; exact absurd hany (by simp)
  | cons kv rest ih =>
    intro hst hall hany
    simp only [List.all_cons, Bool.and_eq_true, decide_eq_true_eq] at hall
    obtain ⟨name, pat⟩ := kv
    simp only [platLookup]
    by_cases hk : strContains hst pat = true
    · rw [if_pos hk]; exact hall.1
    · rw [if_neg hk]
      apply ih hst hall.2
      have hk' : strContains hst pat = false := by
        revert hk; cases strContains hst pat <;> simp
      simp only [List.any_cons] at hany
      rw [hk'] at hany
      simpa using hany

/-- C8 (amended): the discovery resolver `_platform_of` is a pure function
of the hostname alone — a known fragment in the hostname selects a matching
table entry's tag, and the result is `"other"` exactly when the hostname
contains no known fragment; the submission resolver `_platform_for`
matches its two fragments against the whole lower-cased URL — a fragment
anywhere (host, path or query) selects its tag, greenhouse checked first,
and the result is `"other"` exactly when neither fragment occurs anywhere
in the URL. Both are pure. -/
theorem c8_resolvers_pure_fragment_match :
    (∀ u v : String, hostOf u = hostOf v → _platform_of u = _platform_of v)
    ∧ (∀ u : String, platFragIn (hostOf u) = true →
        ∃ kv, kv ∈ PLATFORMS ∧ strContains (hostOf u) kv.2 = true
          ∧ _platform_of u = kv.1)
    ∧ (∀ u : String, _platform_of u = "other" ↔ platFragIn (hostOf u) = false)
    ∧ (∀ u : String, strContains (lowerStr u) "greenhouse.io" = true →
        _platform_for u = "greenhouse")
    ∧ (∀ u : String, strContains (lowerStr u) "greenhouse.io" = false →
        strContains (lowerStr u) "lever.co" = true → _platform_for u = "lever")
    ∧ (∀ u : String, _platform_for u = "other" ↔
        (strContains (lowerStr u) "greenhouse.io" = false
          ∧ strContains (lowerStr u) "lever.co" = false)) := by
  refine ⟨?_, ?_, ?_, ?_, ?_, ?_⟩
  · intro u v h; unfold _platform_of; rw [h]
  · intro u h
    unfold platFragIn at h
    unfold _platform_of
    exact platLookup_mem_of_any PLATFORMS (hostOf u) h
  · intro u
    constructor
    · intro h
      by_contra hne
      have ht : platFragIn (hostOf u) = true := by
        revert hne; cases platFragIn (hostOf u) <;> simp
      unfold platFragIn at ht
      exact platLookup_ne_other PLATFORMS (hostOf u) (by decide) ht h
    · intro h
      unfold platFragIn at h
      unfold _platform_of
      exact platLookup_other PLATFORMS (hostOf u) h
  · intro u h
    simp [_platform_for, h]
  · intro u h1 h2
    simp [_platform_for, h1, h2]
  · intro u
    constructor
    · intro h
      constructor
      · by_contra hg
        have hg' : strContains (lowerStr u) "greenhouse.io" = true := by
          revert hg; cases strContains (lowerStr u) "greenhouse.io" <;> simp
        have hv : _platform_for u = "greenhouse" := by simp [_platform_for, hg']
        rw [hv] at h
        exact absurd h (by decide)
      · by_contra hl
        have hl' : strContains (lowerStr u) "lever.co" = true := by
          revert hl; cases strContains (lowerStr u) "lever.co" <;> simp
        by_cases hg : strContains (lowerStr u) "greenhouse.io" = true
        · have hv : _platform_for u = "greenhouse" := by simp [_platform_for, hg]
          rw [hv] at h
          exact absurd h (by decide)
        · have hg' : strContains (lowerStr u) "greenhouse.io" = false := by
            revert hg; cases strContains (lowerStr u) "greenhouse.io" <;> simp
          have hv : _platform_for u = "lever" := by simp [_platform_for, hg', hl']
          rw [hv] at h
          exact absurd h (by decide)
    · intro h
      simp [_platform_for, h.1, h.2]

/-- Witness for C8 (amended) at concrete URLs: case-insensitively equal
hosts resolve alike; a fragment-free host and URL give `"other"`; a
fragment in the hostname, the path, or the host selects the matching tag. -/
theorem c8_resolvers_pure_fragment_match_witness :
    _platform_of "https://EXAMPLE.com/a" = _platform_of "https://example.com/b?x=1"
    ∧ _platform_of "https://example.com/a" = "other"
    ∧ _platform_of "https://jobs.lever.co/acme" ≠ "other"
    ∧ _platform_for "https://example.com/greenhouse.io/x" = "greenhouse"
    ∧ _platform_for "https://jobs.lever.co/acme" = "lever"
    ∧ _platform_for "https://example.com/a" = "other" := by
  have h := c8_resolvers_pure_fragment_match
  refine ⟨h.1 "https://EXAMPLE.com/a" "https://example.com/b?x=1" rfl,
    (h.2.2.1 "https://example.com/a").mpr rfl, ?_,
    h.2.2.2.1 "https://example.com/greenhouse.io/x" rfl,
    h.2.2.2.2.1 "https://jobs.lever.co/acme" rfl rfl,
    (h.2.2.2.2.2 "https://example.com/a").mpr ⟨rfl, rfl⟩⟩
  intro he
  exact absurd ((h.2.2.1 "https://jobs.lever.co/acme").mp he) (by decide)

/-! ## Claim C9 — the temp résumé file's lifecycle -/

/-- A per-target attempt that always completes (no escaping exception). -/
def c9Attempt : SelItem → Except String AppOutcome := fun _ =>
  .ok ⟨"other", "manual_required", "", "", "", ""⟩

/-- Counterexample to C9: when browser setup raises, `auto_apply_batch`
propagates the exception before reaching the `os.remove` call (which is
not in a `finally`), so the materialized résumé file survives the batch. -/
theorem c9_cleanup_skipped_on_setup_exception_cex :
    auto_apply_batch_fs (Except.error "browser launch failed") c9Attempt
        [37] [] "/tmp/resume.pdf" []
      = ⟨Except.error "browser launch failed", ["/tmp/resume.pdf"]⟩
    ∧ memStr "/tmp/resume.pdf"
        (auto_apply_batch_fs (Except.error "browser launch failed") c9Attempt
          [37] [] "/tmp/resume.pdf" []).files = true :=
  ⟨rfl, rfl⟩

theorem memStr_filter_ne (x : String) : ∀ l : List String,
    memStr x (l.filter fun q => q ≠ x) = false := by
  intro l
  induction l with
  | nil => rfl
  | cons y ys ih =>
    by_cases h : y = x
    · rw [List.filter_cons_of_neg (by simp [h])]
      exact ih
    · rw [List.filter_cons_of_pos (by simp [h])]
      rw [memStr, if_neg fun he => h he.symm]
      exact ih

/-- C9 (amended): the résumé file materialized for a batch is removed by
the time the batch returns normally — in particular even when individual
per-target form-fill attempts fail, since those are caught inside
`_apply_one` and reach the loop as recorded results — but only on the
normal-return path: an exception from browser setup or from the batch loop
propagates before the cleanup (see the counterexample). -/
theorem c9_cleanup_on_normal_return (launch : Except String Unit)
    (attempt : SelItem → Except String AppOutcome) (bytes : List Nat)
    (selected : List SelItem) (fresh : String) (fs0 : List String)
    (out : List AppOutcome)
    (hb : bytes.isEmpty = false) (hf : fresh.isEmpty = false)
    (h : (auto_apply_batch_fs launch attempt bytes selected fresh fs0).result
          = Except.ok out) :
    memStr fresh (auto_apply_batch_fs launch attempt bytes selected fresh fs0).files
      = false := by
  unfold auto_apply_batch_fs _save_temp_file at h ⊢
  rw [hb] at h ⊢
  simp only [Bool.false_eq_true, if_false] at h ⊢
  cases launch with
  | error e => simp at h
  | ok _ =>
    cases hb2 : batchLoop attempt selected [] with
    | error e => rw [hb2] at h; simp at h
    | ok o =>
      dsimp only
      simp only [hf, Bool.false_eq_true, if_false]
      exact memStr_filter_ne fresh (fs0 ++ [fresh])

/-- Witness for C9 (amended): a batch that returns normally leaves no
résumé file behind. -/
theorem c9_cleanup_on_normal_return_witness :
    (auto_apply_batch_fs (Except.ok ()) c9Attempt [37] [] "/tmp/resume.pdf" []).result
      = Except.ok []
    ∧ memStr "/tmp/resume.pdf"
        (auto_apply_batch_fs (Except.ok ()) c9Attempt [37] [] "/tmp/resume.pdf" []).files
      = false :=
  ⟨rfl, c9_cleanup_on_normal_return (Except.ok ()) c9Attempt [37] [] "/tmp/resume.pdf" []
    [] rfl rfl rfl⟩
